import Mathlib

/-!
Verification of the greenlight JSON API's admission and lifecycle layer.

The Go sources are shallowly embedded: time is measured in seconds as `ℚ`,
the `clients` map of the rate-limit middleware is an association list, the
movies table is a list of rows, and the channel/goroutine interplay of the
graceful-shutdown path is modelled as the ordered list of events the shutdown
goroutine performs.
-/

namespace Greenlight

/-! ## Rate limiter (cmd/api/middleware.go)

The token-bucket arithmetic lives in `rate.Limiter` from
`golang.org/x/time/rate`, an external dependency whose source is not part of
the repository; it is modelled from the spec (§4.1).  The middleware around
it (`rateLimit`) is embedded from `cmd/api/middleware.go`.
-/

/-- Modelled from the spec: the token-bucket state of `rate.Limiter`
(`golang.org/x/time/rate`, not in the repository sources).  Spec §4.1:
`tokens` (floating-point, ≤ capacity), `capacity` (burst size), `refillRate`
(tokens per second) and the `lastRefill` timestamp.  Numbers are `ℚ`. -/
structure Limiter where
  refillRate : ℚ
  capacity : ℚ
  tokens : ℚ
  lastRefill : ℚ
deriving DecidableEq, Repr

/-- Modelled from the spec: `rate.NewLimiter(r, b)` — a fresh bucket is
created with `tokens = capacity` and `lastRefill = now`. -/
def Limiter.new (r b now : ℚ) : Limiter :=
  { refillRate := r, capacity := b, tokens := b, lastRefill := now }

/-- Modelled from the spec: the refill step of `Allow` — compute
`elapsed = now - lastRefill`, set `tokens = min(capacity, tokens + elapsed *
refillRate)` and `lastRefill = now`. -/
def Limiter.refill (l : Limiter) (now : ℚ) : Limiter :=
  { l with
      tokens := min l.capacity (l.tokens + (now - l.lastRefill) * l.refillRate)
      lastRefill := now }

/-- Modelled from the spec: `Allow` — after refilling, if at least one token
is available consume one and admit, otherwise deny without consuming. -/
def Limiter.allow (l : Limiter) (now : ℚ) : Bool × Limiter :=
  let l' := l.refill now
  if 1 ≤ l'.tokens then (true, { l' with tokens := l'.tokens - 1 })
  else (false, l')

/-- Modelled from the spec: the successive states of one bucket under a
sequence of `Allow` calls, each following the previous one after the given
elapsed duration. -/
def Limiter.allowTrace (l : Limiter) : List ℚ → List (Bool × Limiter)
  | [] => []
  | d :: ds =>
      let r := l.allow (l.lastRefill + d)
      r :: r.2.allowTrace ds

/-- The `client` struct of `rateLimit` (middleware.go lines 18–21): a rate
limiter together with the time the client was last seen. -/
structure Client where
  limiter : Limiter
  lastSeen : ℚ
deriving DecidableEq, Repr

/-- The limiter section of the application config (main.go lines 35–39). -/
structure LimiterConfig where
  rps : ℚ
  burst : ℚ
  enabled : Bool
deriving DecidableEq, Repr

/-- The `clients` map of the middleware, as an association list keyed by the
client's IP string. -/
abbrev Clients := List (String × Client)

/-- Lookup in the `clients` map. -/
def lookupClient : Clients → String → Option Client
  | [], _ => none
  | (k, c) :: rest, ip => if k = ip then some c else lookupClient rest ip

/-- Store a client under a key, replacing the existing entry if present. -/
def setClient : Clients → String → Client → Clients
  | [], ip, c => [(ip, c)]
  | (k, c0) :: rest, ip, c =>
      if k = ip then (ip, c) :: rest else (k, c0) :: setClient rest ip c

/-- The admission check of `rateLimit` on an extracted IP (middleware.go
lines 63–91): under the mutex, get the client's entry — creating it with a
fresh limiter when absent (lines 68–73) — set `lastSeen = time.Now()`
(line 76), then consult `limiter.Allow()` (line 82).  The struct is reached
through a pointer stored in the map, so the net map change is the single
updated entry. -/
def rateLimitAllow (cfg : LimiterConfig) (clients : Clients) (ip : String)
    (now : ℚ) : Bool × Clients :=
  let c0 : Client :=
    match lookupClient clients ip with
    | none => { limiter := Limiter.new cfg.rps cfg.burst now, lastSeen := 0 }
    | some c => c
  let c1 : Client := { c0 with lastSeen := now }
  let (ok, l') := c1.limiter.allow now
  (ok, setClient clients ip { c1 with limiter := l' })

/-- The observable outcome of the middleware on one request. -/
inductive Outcome
  | serverError
  | rateLimited
  | next
deriving DecidableEq, Repr

/-- The per-request body of the handler returned by `rateLimit`
(middleware.go lines 52–95).  `hostPortSplit` is the result of
`net.SplitHostPort(r.RemoteAddr)` (Go standard library): `none` when the
client key cannot be derived, in which case `serverErrorResponse` is sent
before any map access (lines 56–60).  When the limiter is disabled the check
is skipped entirely (line 54). -/
def rateLimit (cfg : LimiterConfig) (hostPortSplit : Option String)
    (clients : Clients) (now : ℚ) : Outcome × Clients :=
  if cfg.enabled then
    match hostPortSplit with
    | none => (.serverError, clients)
    | some ip =>
        let (ok, clients') := rateLimitAllow cfg clients ip now
        if ok then (.next, clients') else (.rateLimited, clients')
  else (.next, clients)

/-- A sequence of admission checks for the same client key at the given
times, returning the decisions in order together with the final map. -/
def rateLimitSeq (cfg : LimiterConfig) (clients : Clients) (ip : String) :
    List ℚ → List Bool × Clients
  | [] => ([], clients)
  | t :: ts =>
      let r := rateLimitAllow cfg clients ip t
      let rest := rateLimitSeq cfg r.2 ip ts
      (r.1 :: rest.1, rest.2)

/-- One pass of the cleanup goroutine's loop body (middleware.go lines
40–44): delete every entry whose `lastSeen` lies more than 3 minutes
(180 seconds) in the past. -/
def sweep (clients : Clients) (now : ℚ) : Clients :=
  clients.filter (fun kc => !decide (180 < now - kc.2.lastSeen))

/-! ## Background task tracker (cmd/api/helpers.go, `runBackground`) -/

/-- How the function handed to `runBackground` terminates. -/
inductive FnOutcome
  | normal
  | panicked (msg : String)
deriving DecidableEq, Repr

/-- One observable event of a `runBackground` call. -/
inductive BgEvent
  | wgAdd
  | fnStart
  | fnPanic (msg : String)
  | recoverLog (msg : String)
  | fnReturn
  | wgDone
deriving DecidableEq, Repr

/-- The ordered events of `runBackground` (helpers.go lines 198–216) for a
task body terminating as `outcome`: the caller runs `wg.Add(1)` before the
goroutine starts the body; inside the goroutine the deferred functions run in
reverse order of declaration as Go unwinds, so the `recover` boundary
(lines 207–211) runs before the deferred `wg.Done()` (line 204), which runs
in every case. -/
def runBackgroundEvents : FnOutcome → List BgEvent
  | .normal => [.wgAdd, .fnStart, .fnReturn, .wgDone]
  | .panicked m => [.wgAdd, .fnStart, .fnPanic m, .recoverLog m, .wgDone]

/-- State threaded through a background task's events: the WaitGroup
counter, the messages logged via `app.logger.PrintError`, and the panic in
flight (if any). -/
structure BgState where
  counter : ℤ
  logged : List String
  panicking : Option String
deriving DecidableEq, Repr

/-- Effect of a single event: `wg.Add(1)` increments and `wg.Done()`
decrements the counter; a panic starts unwinding; the recover boundary
(helpers.go lines 207–211) clears the in-flight panic and logs it as an
error; starting or returning from the body changes nothing. -/
def BgState.step (s : BgState) : BgEvent → BgState
  | .wgAdd => { s with counter := s.counter + 1 }
  | .wgDone => { s with counter := s.counter - 1 }
  | .fnStart => s
  | .fnReturn => s
  | .fnPanic m => { s with panicking := some m }
  | .recoverLog m =>
      match s.panicking with
      | some _ => { s with panicking := none, logged := s.logged ++ [m] }
      | none => s

/-- Run `runBackground` from a given WaitGroup counter with a body that
terminates as `outcome`, yielding the final observable state. -/
def runBackground (counter : ℤ) (outcome : FnOutcome) : BgState :=
  (runBackgroundEvents outcome).foldl BgState.step
    { counter := counter, logged := [], panicking := none }

/-! ## Graceful shutdown (cmd/api/server.go `serve`, cmd/api/main.go `main`) -/

/-- The errors relevant to `serve`: `http.ErrServerClosed` (returned by
`ListenAndServe` once `Shutdown` is called), `context.DeadlineExceeded`
(returned by `srv.Shutdown(ctx)` when the 5-second drain context expires with
requests still active), and any other error. -/
inductive GoError
  | errServerClosed
  | deadlineExceeded
  | closeFailure (msg : String)
deriving DecidableEq, Repr

/-- Events performed in order by the shutdown goroutine of `serve`. -/
inductive ShutdownEvent
  | sendErr (e : GoError)
  | waitAll
  | sendNil
deriving DecidableEq, Repr

/-- The shutdown goroutine of `serve` (server.go lines 48–95), after the
signal is received: `srv.Shutdown(ctx)` yields `shutdownResult` (`none` when
the graceful shutdown finished inside the deadline); a non-nil error is sent
on the `shutdownError` channel at once (lines 80–82); then the goroutine
blocks on `app.wg.Wait()` and finally sends `nil` (lines 93–94). -/
def shutdownGoroutineEvents (shutdownResult : Option GoError) :
    List ShutdownEvent :=
  (match shutdownResult with
   | some e => [ShutdownEvent.sendErr e]
   | none => []) ++ [ShutdownEvent.waitAll, ShutdownEvent.sendNil]

/-- The first value sent on the `shutdownError` channel — the value `serve`'s
main flow receives at server.go line 112. -/
def firstShutdownSend : List ShutdownEvent → Option (Option GoError)
  | [] => none
  | .sendErr e :: _ => some (some e)
  | .sendNil :: _ => some none
  | .waitAll :: rest => firstShutdownSend rest

/-- Whether the goroutine completes `app.wg.Wait()` before the value that
`serve` receives is sent — i.e. whether returning from `serve` (and hence
process exit through `main`) is gated on the background-task counter having
reached zero. -/
def waitAllBeforeFirstSend : List ShutdownEvent → Bool
  | [] => false
  | .sendErr _ :: _ => false
  | .sendNil :: _ => false
  | .waitAll :: _ => true

/-- `serve` (server.go lines 102–122): an error from `ListenAndServe` other
than `ErrServerClosed` is returned directly; otherwise `serve` returns the
first value received from `shutdownError` — an error if one was sent, `nil`
after a clean shutdown. -/
def serve (listenResult : GoError) (shutdownResult : Option GoError) :
    Option GoError :=
  if listenResult ≠ GoError.errServerClosed then some listenResult
  else
    match firstShutdownSend (shutdownGoroutineEvents shutdownResult) with
    | some v => v
    | none => none

/-- How `main` ends. -/
inductive ExitStatus
  | ok
  | fatal
deriving DecidableEq, Repr

/-- main.go lines 119–122: a non-nil error from `app.serve()` is passed to
`logger.PrintFatal`, which terminates the process with `os.Exit(1)`
(internal/jsonlog/jsonlog.go lines 110–113). -/
def mainExit (serveResult : Option GoError) : ExitStatus :=
  match serveResult with
  | some _ => .fatal
  | none => .ok

/-! ## Movies data layer (internal/data/movies.go, cmd/api/movies.go,
cmd/api/helpers.go `readIDParam`) -/

/-- A row of the `movies` table / the `Movie` struct (internal/data/movies.go
lines 14–22).  `CreatedAt` is irrelevant to the claims and omitted from the
row state; `Runtime` is its underlying int32. -/
structure Movie where
  id : ℤ
  title : String
  year : ℤ
  runtime : ℤ
  genres : List String
  version : ℤ
deriving DecidableEq, Repr

/-- The data-layer errors: `ErrRecordNotFound` (internal/data/models.go) and
`ErrEditConflict`, plus a catch-all for other database failures. -/
inductive DataError
  | recordNotFound
  | editConflict
  | dbFailure (msg : String)
deriving DecidableEq, Repr

/-- The row transformation performed by the UPDATE statement of
`MovieModel.Update` (movies.go lines 125–130): a row matching both `id` and
`version` receives the new field values and `version = version + 1`; every
other row is untouched. -/
def updateRow (m : Movie) (row : Movie) : Movie :=
  if row.id = m.id ∧ row.version = m.version then
    { row with
        title := m.title, year := m.year, runtime := m.runtime
        genres := m.genres, version := row.version + 1 }
  else row

/-- `MovieModel.Update` (movies.go lines 121–161) against table state `db`:
execute the conditional UPDATE; `RETURNING version` scans the incremented
version back into the movie when a row matched, and the resulting
`sql.ErrNoRows` is mapped to `ErrEditConflict` when none did (lines
150–158). -/
def MovieModel.Update (db : List Movie) (m : Movie) :
    List Movie × Except DataError Movie :=
  let db' := db.map (updateRow m)
  match db.find? (fun row => decide (row.id = m.id) && decide (row.version = m.version)) with
  | some _ => (db', Except.ok { m with version := m.version + 1 })
  | none => (db', Except.error DataError.editConflict)

/-- Find the row with a given id (the `WHERE id = $1` of `MovieModel.Get`). -/
def findById (db : List Movie) (i : ℤ) : Option Movie :=
  db.find? (fun row => decide (row.id = i))

/-- `MovieModel.Get` (movies.go lines 66–118): ids below 1 are rejected with
`ErrRecordNotFound` before any database call; otherwise the row is fetched,
with `sql.ErrNoRows` mapped to `ErrRecordNotFound`.  The `Bool` records
whether the database was consulted. -/
def MovieModel.Get (db : List Movie) (id : ℤ) :
    Except DataError Movie × Bool :=
  if id < 1 then (Except.error DataError.recordNotFound, false)
  else
    match findById db id with
    | some row => (Except.ok row, true)
    | none => (Except.error DataError.recordNotFound, true)

/-- `MovieModel.Delete` (movies.go lines 164–199): ids below 1 are rejected
with `ErrRecordNotFound` before any database call; otherwise the DELETE runs
and zero affected rows is reported as `ErrRecordNotFound`.  The `Bool`
records whether the database was consulted. -/
def MovieModel.Delete (db : List Movie) (id : ℤ) :
    (List Movie × Except DataError Unit) × Bool :=
  if id < 1 then ((db, Except.error DataError.recordNotFound), false)
  else
    let db' := db.filter (fun row => !decide (row.id = id))
    if db.countP (fun row => decide (row.id = id)) = 0 then
      ((db', Except.error DataError.recordNotFound), true)
    else ((db', Except.ok ()), true)

/-- The value of a run of decimal digits; `none` when the run is empty or a
non-digit occurs. -/
def digitsVal : List Char → Option ℕ
  | [] => none
  | cs =>
    cs.foldl
      (fun acc c =>
        match acc with
        | none => none
        | some n => if c.isDigit then some (n * 10 + (c.toNat - 48)) else none)
      (some 0)

/-- Models `strconv.ParseInt(s, 10, 64)` from the Go standard library, as
used by `readIDParam`: an optional sign followed by at least one decimal
digit and nothing else, with the value required to fit in a signed 64-bit
integer; every other input is an error (`none`). -/
def parseInt64 (s : String) : Option ℤ :=
  let signDigits : ℤ × List Char :=
    match s.data with
    | '+' :: rest => (1, rest)
    | '-' :: rest => (-1, rest)
    | cs => (1, cs)
  match digitsVal signDigits.2 with
  | none => none
  | some n =>
      let v : ℤ := signDigits.1 * n
      if v < -(2 ^ 63) ∨ 2 ^ 63 - 1 < v then none else some v

/-- `readIDParam` (helpers.go lines 26–35): parse the `id` URL parameter in
base 10; on a parse error, or an id below 1, return `0` together with an
error. -/
def readIDParam (idParam : String) : ℤ × Option String :=
  match parseInt64 idParam with
  | some id =>
      if id < 1 then (0, some "invalid id parameter") else (id, none)
  | none => (0, some "invalid id parameter")

/-- The id with which `showMovieHandler` (cmd/api/movies.go lines 127–154)
invokes `app.models.Movies.Get`, if it invokes it at all: an error from
`readIDParam` sends `notFoundResponse` and returns first (lines 129–133). -/
def showMovieGetCall (idParam : String) : Option ℤ :=
  match readIDParam idParam with
  | (_, some _) => none
  | (id, none) => some id

/-- The responses `updateMovieHandler` can produce after calling
`Movies.Update`. -/
inductive UpdateResponse
  | okMovie (m : Movie)
  | editConflict
  | serverError
deriving DecidableEq, Repr

/-- The tail of `updateMovieHandler` (cmd/api/movies.go lines 218–234):
`ErrEditConflict` from `Movies.Update` is intercepted and mapped to
`editConflictResponse` (409 Conflict); any other error becomes
`serverErrorResponse`; on success the updated movie is written out. -/
def updateMovieRespond (res : Except DataError Movie) : UpdateResponse :=
  match res with
  | Except.error DataError.editConflict => UpdateResponse.editConflict
  | Except.error _ => UpdateResponse.serverError
  | Except.ok m => UpdateResponse.okMovie m

/-- The decoded request body of `updateMovieHandler` (cmd/api/movies.go lines
182–187): every field is a pointer, so an absent key decodes to `nil`
(`none`) and is distinguished from a provided zero value. -/
structure UpdateMovieInput where
  title : Option String
  year : Option ℤ
  runtime : Option ℤ
  genres : Option (List String)
deriving DecidableEq, Repr

/-- The field-merging step of `updateMovieHandler` (cmd/api/movies.go lines
196–209): each field of the fetched movie is overwritten only when the
corresponding input pointer is non-nil. -/
def mergeMovieInput (movie : Movie) (input : UpdateMovieInput) : Movie :=
  let movie :=
    match input.title with
    | some t => { movie with title := t }
    | none => movie
  let movie :=
    match input.year with
    | some y => { movie with year := y }
    | none => movie
  let movie :=
    match input.runtime with
    | some rt => { movie with runtime := rt }
    | none => movie
  match input.genres with
  | some g => { movie with genres := g }
  | none => movie

/-! ## Helper lemmas -/

theorem lookupClient_setClient_self (m : Clients) (ip : String) (c : Client) :
    lookupClient (setClient m ip c) ip = some c := by
  induction m with
  | nil => simp [setClient, lookupClient]
  | cons kc rest ih =>
      obtain ⟨k, c0⟩ := kc
      by_cases h : k = ip
      · simp [setClient, lookupClient, h]
      · simp [setClient, lookupClient, h, ih]

theorem lookupClient_eq_none (m : Clients) (ip : String)
    (h : ip ∉ m.map Prod.fst) : lookupClient m ip = none := by
  induction m with
  | nil => rfl
  | cons kc rest ih =>
      obtain ⟨k, c⟩ := kc
      simp only [List.map_cons, List.mem_cons] at h
      push_neg at h
      have hk : ¬ (k = ip) := fun hkip => h.1 hkip.symm
      simp [lookupClient, hk, ih h.2]

theorem rateLimitAllow_found (cfg : LimiterConfig) (clients : Clients)
    (ip : String) (now : ℚ) (c : Client)
    (hc : lookupClient clients ip = some c) :
    rateLimitAllow cfg clients ip now =
      ((c.limiter.allow now).1,
       setClient clients ip ⟨(c.limiter.allow now).2, now⟩) := by
  unfold rateLimitAllow
  simp [hc]

theorem rateLimitAllow_fresh (cfg : LimiterConfig) (clients : Clients)
    (ip : String) (now : ℚ) (hc : lookupClient clients ip = none) :
    rateLimitAllow cfg clients ip now =
      (((Limiter.new cfg.rps cfg.burst now).allow now).1,
       setClient clients ip
         ⟨((Limiter.new cfg.rps cfg.burst now).allow now).2, now⟩) := by
  unfold rateLimitAllow
  simp [hc]

theorem sweep_cons (k : String) (c0 : Client) (rest : Clients) (now : ℚ) :
    sweep ((k, c0) :: rest) now =
      (if 180 < now - c0.lastSeen then sweep rest now
       else (k, c0) :: sweep rest now) := by
  by_cases hh : 180 < now - c0.lastSeen <;> simp [sweep, List.filter_cons, hh]

/-! ## Claim theorems -/

/-- C7: when the client key cannot be derived from the request (the host/port
split of the remote address fails), the enabled rate-limit middleware answers
with the internal server error, never with the rate-limited response; the
clients map is untouched (no bucket created or consulted) and the next
handler is not invoked. -/
theorem rateLimit_keyFailure_serverError (cfg : LimiterConfig)
    (clients : Clients) (now : ℚ) (hen : cfg.enabled = true) :
    rateLimit cfg none clients now = (Outcome.serverError, clients) ∧
    (rateLimit cfg none clients now).1 ≠ Outcome.rateLimited ∧
    (rateLimit cfg none clients now).1 ≠ Outcome.next := by
  have h : rateLimit cfg none clients now = (Outcome.serverError, clients) := by
    unfold rateLimit
    rw [hen]
    simp
  refine ⟨h, ?_, ?_⟩ <;> rw [h] <;> simp

/-- Witness for C7 at a concrete configuration and map. -/
theorem rateLimit_keyFailure_serverError_witness :
    rateLimit ⟨2, 4, true⟩ none [] 0 = (Outcome.serverError, []) :=
  (rateLimit_keyFailure_serverError ⟨2, 4, true⟩ [] 0 rfl).1

/-- C8: for every task body handed to `runBackground`, the WaitGroup counter
is incremented before the body starts, the counter is decremented exactly
once whether the body returns normally or panics (net effect zero), a panic
inside the body is converted into one logged error, and no panic escapes the
task boundary. -/
theorem runBackground_counter_and_recover (counter : ℤ) (outcome : FnOutcome) :
    (runBackgroundEvents outcome).take 2 = [BgEvent.wgAdd, BgEvent.fnStart] ∧
    (runBackgroundEvents outcome).count BgEvent.wgDone = 1 ∧
    (runBackgroundEvents outcome).getLast? = some BgEvent.wgDone ∧
    (runBackground counter outcome).counter = counter ∧
    (runBackground counter outcome).panicking = none ∧
    (runBackground counter outcome).logged =
      (match outcome with
       | FnOutcome.normal => []
       | FnOutcome.panicked m => [m]) := by
  cases outcome <;>
    simp [runBackground, runBackgroundEvents, BgState.step, List.count_cons]

/-- C1 counterexample: when the drain grace period elapses with requests
still active, `srv.Shutdown` yields `context.DeadlineExceeded`; the shutdown
goroutine sends that error before it reaches `app.wg.Wait()`, so `serve`
returns the error without the process exit being gated on the background-task
counter, and `main` treats the drain timeout as fatal (`PrintFatal`, i.e.
`os.Exit(1)`). -/
theorem serve_drainTimeout_cex :
    serve GoError.errServerClosed (some GoError.deadlineExceeded) =
      some GoError.deadlineExceeded ∧
    waitAllBeforeFirstSend
      (shutdownGoroutineEvents (some GoError.deadlineExceeded)) = false ∧
    mainExit (serve GoError.errServerClosed (some GoError.deadlineExceeded)) =
      ExitStatus.fatal :=
  ⟨rfl, rfl, rfl⟩

/-- C1 amended: `serve` returns whatever `srv.Shutdown` produced — on a drain
timeout the deadline error is sent on `shutdownError` before the goroutine
reaches `app.wg.Wait()`, so the process exit is not gated on the
background-task counter and `main` exits fatally; only a clean shutdown
(`nil` from `Shutdown`) makes the goroutine block on `wg.Wait()` before
`serve` returns `nil` and `main` exits normally. -/
theorem serve_shutdown_semantics (shutdownResult : Option GoError) :
    serve GoError.errServerClosed shutdownResult = shutdownResult ∧
    waitAllBeforeFirstSend (shutdownGoroutineEvents shutdownResult) =
      shutdownResult.isNone ∧
    mainExit (serve GoError.errServerClosed shutdownResult) =
      (match shutdownResult with
       | some _ => ExitStatus.fatal
       | none => ExitStatus.ok) := by
  cases shutdownResult <;>
    simp [serve, shutdownGoroutineEvents, firstShutdownSend,
      waitAllBeforeFirstSend, mainExit]

/-- C5: at an eviction sweep, a client entry whose `lastSeen` lies more than
the 3-minute window in the past is absent from the map afterwards, while an
entry seen within the window is still present, unchanged. -/
theorem sweep_evicts_stale_keeps_fresh (clients : Clients) (ip : String)
    (c : Client) (now : ℚ) (hnodup : (clients.map Prod.fst).Nodup)
    (hc : lookupClient clients ip = some c) :
    (180 < now - c.lastSeen → lookupClient (sweep clients now) ip = none) ∧
    (now - c.lastSeen ≤ 180 → lookupClient (sweep clients now) ip = some c) := by
  induction clients with
  | nil => simp [lookupClient] at hc
  | cons kc rest ih =>
      obtain ⟨k, c0⟩ := kc
      simp only [List.map_cons, List.nodup_cons] at hnodup
      by_cases hk : k = ip
      · subst hk
        have hc0 : c0 = c := by simpa [lookupClient] using hc
        subst hc0
        have hrest : lookupClient (sweep rest now) k = none := by
          apply lookupClient_eq_none
          intro hmem
          exact hnodup.1 (List.map_subset _ (List.filter_subset' _) hmem)
        constructor
        · intro hstale
          rw [sweep_cons, if_pos hstale]
          exact hrest
        · intro hfresh
          rw [sweep_cons, if_neg (not_lt.mpr hfresh)]
          simp [lookupClient]
      · simp only [lookupClient, if_neg hk] at hc
        have hih := ih hnodup.2 hc
        constructor <;> intro h
        · by_cases hh : 180 < now - c0.lastSeen
          · rw [sweep_cons, if_pos hh]
            exact hih.1 h
          · rw [sweep_cons, if_neg hh]
            simpa [lookupClient, hk] using hih.1 h
        · by_cases hh : 180 < now - c0.lastSeen
          · rw [sweep_cons, if_pos hh]
            exact hih.2 h
          · rw [sweep_cons, if_neg hh]
            simpa [lookupClient, hk] using hih.2 h

/-- C5 witness: a concrete map with one stale and one fresh entry, swept at
time 200. -/
theorem sweep_evicts_stale_keeps_fresh_witness :
    lookupClient (sweep [("a", ⟨⟨1, 2, 0, 0⟩, 0⟩),
        ("b", ⟨⟨1, 2, 0, 0⟩, 100⟩)] 200) "a" = none ∧
    lookupClient (sweep [("a", ⟨⟨1, 2, 0, 0⟩, 0⟩),
        ("b", ⟨⟨1, 2, 0, 0⟩, 100⟩)] 200) "b" = some ⟨⟨1, 2, 0, 0⟩, 100⟩ :=
  ⟨(sweep_evicts_stale_keeps_fresh
      [("a", ⟨⟨1, 2, 0, 0⟩, 0⟩), ("b", ⟨⟨1, 2, 0, 0⟩, 100⟩)] "a"
      ⟨⟨1, 2, 0, 0⟩, 0⟩ 200 (by simp) rfl).1 (by norm_num),
   (sweep_evicts_stale_keeps_fresh
      [("a", ⟨⟨1, 2, 0, 0⟩, 0⟩), ("b", ⟨⟨1, 2, 0, 0⟩, 100⟩)] "b"
      ⟨⟨1, 2, 0, 0⟩, 100⟩ 200 (by simp) rfl).2 (by norm_num)⟩

/-- C3: for a fresh client key under capacity 2 and refill rate 1 token per
second, three admission checks with no elapsed time between them yield
allowed, allowed, denied, and a fourth check at least one second later is
allowed again. -/
theorem rateLimit_capacity2_rate1 (clients : Clients) (ip : String)
    (now d : ℚ) (hfresh : lookupClient clients ip = none) (hd : 1 ≤ d) :
    (rateLimitSeq ⟨1, 2, true⟩ clients ip [now, now, now, now + d]).1 =
      [true, true, false, true] := by
  have e1 : (Limiter.new 1 2 now).allow now = (true, ⟨1, 2, 1, now⟩) := by
    unfold Limiter.new Limiter.allow Limiter.refill
    norm_num
  have e2 : (⟨1, 2, 1, now⟩ : Limiter).allow now = (true, ⟨1, 2, 0, now⟩) := by
    unfold Limiter.allow Limiter.refill
    norm_num
  have e3 : (⟨1, 2, 0, now⟩ : Limiter).allow now = (false, ⟨1, 2, 0, now⟩) := by
    unfold Limiter.allow Limiter.refill
    norm_num
  have e4 : ((⟨1, 2, 0, now⟩ : Limiter).allow (now + d)).1 = true := by
    unfold Limiter.allow Limiter.refill
    have hmin : (1 : ℚ) ≤ min 2 (0 + (now + d - now) * 1) := by
      rw [le_min_iff]
      refine ⟨by norm_num, by simpa using hd⟩
    simp [hmin, hd]
  simp only [rateLimitSeq]
  rw [rateLimitAllow_fresh _ _ _ _ hfresh]
  norm_num [e1]
  rw [rateLimitAllow_found _ _ _ _ _
    (lookupClient_setClient_self clients ip ⟨⟨1, 2, 1, now⟩, now⟩)]
  norm_num [e2]
  rw [rateLimitAllow_found _ _ _ _ _
    (lookupClient_setClient_self _ ip ⟨⟨1, 2, 0, now⟩, now⟩)]
  norm_num [e3]
  rw [rateLimitAllow_found _ _ _ _ _
    (lookupClient_setClient_self _ ip ⟨⟨1, 2, 0, now⟩, now⟩)]
  norm_num [e4]

/-- C3 witness: the burst-then-refill scenario run from the empty map at
times 0, 0, 0, 1. -/
theorem rateLimit_capacity2_rate1_witness :
    (rateLimitSeq ⟨1, 2, true⟩ [] "a" [0, 0, 0, 0 + 1]).1 =
      [true, true, false, true] :=
  rateLimit_capacity2_rate1 [] "a" 0 1 rfl (by norm_num)

/-- C6 counterexample: a request denied by the limiter still updates the
bucket's `lastSeen`: with one token-less bucket last seen at time 0, the
check at time 1/2 is denied, yet the stored `lastSeen` moves from 0 to 1/2,
because the middleware writes `lastSeen = time.Now()` (middleware.go line 76)
before consulting `limiter.Allow()` (line 82). -/
theorem rateLimit_denied_updates_lastSeen_cex :
    (rateLimit ⟨1, 2, true⟩ (some "a")
        [("a", ⟨⟨1, 2, 0, 0⟩, 0⟩)] (1/2)).1 = Outcome.rateLimited ∧
    (lookupClient (rateLimit ⟨1, 2, true⟩ (some "a")
        [("a", ⟨⟨1, 2, 0, 0⟩, 0⟩)] (1/2)).2 "a").map Client.lastSeen =
      some (1/2) ∧
    (lookupClient [("a", (⟨⟨1, 2, 0, 0⟩, 0⟩ : Client))] "a").map
      Client.lastSeen = some 0 ∧
    ((1 : ℚ)/2) ≠ 0 := by
  have h : rateLimit ⟨1, 2, true⟩ (some "a")
      [("a", ⟨⟨1, 2, 0, 0⟩, 0⟩)] (1/2) =
      (Outcome.rateLimited, [("a", ⟨⟨1, 2, 1/2, 1/2⟩, 1/2⟩)]) := by
    unfold rateLimit rateLimitAllow Limiter.allow Limiter.refill
    norm_num [lookupClient, setClient]
  rw [h]
  refine ⟨rfl, ?_, rfl, by norm_num⟩
  simp [lookupClient]

/-- C6 amended: a denied admission check consumes no token — the bucket's
token count and refill timestamp stay at their post-refill values — but the
middleware sets the client's `lastSeen` to the current time before the
limiter check, so `lastSeen` is updated on denied requests as well as on
allowed ones. -/
theorem rateLimit_denied_noConsume_lastSeen_now (cfg : LimiterConfig)
    (clients : Clients) (ip : String) (now : ℚ) (c : Client)
    (hen : cfg.enabled = true) (hc : lookupClient clients ip = some c) :
    lookupClient (rateLimit cfg (some ip) clients now).2 ip =
      some ⟨(c.limiter.allow now).2, now⟩ ∧
    ((rateLimit cfg (some ip) clients now).1 = Outcome.rateLimited ↔
      (c.limiter.allow now).1 = false) ∧
    ((c.limiter.allow now).1 = false →
      (c.limiter.allow now).2.tokens = (c.limiter.refill now).tokens ∧
      (c.limiter.allow now).2.lastRefill = (c.limiter.refill now).lastRefill) := by
  have h : rateLimit cfg (some ip) clients now =
      ((if (c.limiter.allow now).1 then Outcome.next else Outcome.rateLimited),
       setClient clients ip ⟨(c.limiter.allow now).2, now⟩) := by
    unfold rateLimit rateLimitAllow
    simp [hen, hc]
    split <;> rfl
  refine ⟨?_, ?_, ?_⟩
  · rw [h]
    exact lookupClient_setClient_self clients ip ⟨(c.limiter.allow now).2, now⟩
  · rw [h]
    by_cases hb : (c.limiter.allow now).1 <;> simp [hb]
  · intro hdeny
    unfold Limiter.allow at hdeny ⊢
    by_cases ht : 1 ≤ (c.limiter.refill now).tokens
    · simp [ht] at hdeny
    · simp [ht]

/-- C6 amended witness: the concrete denied request of the counterexample,
through the amended theorem. -/
theorem rateLimit_denied_noConsume_lastSeen_now_witness :
    lookupClient (rateLimit ⟨1, 2, true⟩ (some "a")
        [("a", ⟨⟨1, 2, 0, 0⟩, 0⟩)] (1/2)).2 "a" =
      some ⟨((⟨1, 2, 0, 0⟩ : Limiter).allow (1/2)).2, 1/2⟩ ∧
    ((rateLimit ⟨1, 2, true⟩ (some "a")
        [("a", ⟨⟨1, 2, 0, 0⟩, 0⟩)] (1/2)).1 = Outcome.rateLimited ↔
      ((⟨1, 2, 0, 0⟩ : Limiter).allow (1/2)).1 = false) :=
  ⟨(rateLimit_denied_noConsume_lastSeen_now ⟨1, 2, true⟩
      [("a", ⟨⟨1, 2, 0, 0⟩, 0⟩)] "a" (1/2) ⟨⟨1, 2, 0, 0⟩, 0⟩ rfl rfl).1,
   (rateLimit_denied_noConsume_lastSeen_now ⟨1, 2, true⟩
      [("a", ⟨⟨1, 2, 0, 0⟩, 0⟩)] "a" (1/2) ⟨⟨1, 2, 0, 0⟩, 0⟩ rfl rfl).2.1⟩

theorem Limiter.allow_fields (l : Limiter) (now : ℚ) :
    (l.allow now).2.refillRate = l.refillRate ∧
    (l.allow now).2.capacity = l.capacity ∧
    (l.allow now).2.lastRefill = now := by
  unfold Limiter.allow Limiter.refill
  by_cases h : (1 : ℚ) ≤
      min l.capacity (l.tokens + (now - l.lastRefill) * l.refillRate) <;>
    simp [h]

theorem Limiter.allow_tokens_bound (l : Limiter) (now : ℚ)
    (hrate : 0 ≤ l.refillRate) (h0 : 0 ≤ l.tokens)
    (hcap : l.tokens ≤ l.capacity) (hnow : l.lastRefill ≤ now) :
    0 ≤ (l.allow now).2.tokens ∧ (l.allow now).2.tokens ≤ l.capacity := by
  have helap : 0 ≤ (now - l.lastRefill) * l.refillRate :=
    mul_nonneg (sub_nonneg.mpr hnow) hrate
  have h0' : 0 ≤ min l.capacity (l.tokens + (now - l.lastRefill) * l.refillRate) :=
    le_min (le_trans h0 hcap) (by linarith)
  have hub : min l.capacity (l.tokens + (now - l.lastRefill) * l.refillRate) ≤
      l.capacity := min_le_left _ _
  unfold Limiter.allow Limiter.refill
  by_cases h : (1 : ℚ) ≤
      min l.capacity (l.tokens + (now - l.lastRefill) * l.refillRate)
  · simp only [h, if_true]
    constructor
    · show (0 : ℚ) ≤
        min l.capacity (l.tokens + (now - l.lastRefill) * l.refillRate) - 1
      linarith
    · show min l.capacity (l.tokens + (now - l.lastRefill) * l.refillRate) - 1 ≤
        l.capacity
      linarith
  · simp only [h, if_false]
    exact ⟨h0', hub⟩

/-- C4: the bucket invariant — starting from any bucket whose token count
lies between 0 and its capacity (a fresh bucket starts full), after every
`Allow` call of any sequence with arbitrary nonnegative elapsed time between
calls, the token count still satisfies `0 ≤ tokens ≤ capacity`. -/
theorem limiter_tokens_invariant (l : Limiter) (ds : List ℚ)
    (hrate : 0 ≤ l.refillRate) (h0 : 0 ≤ l.tokens)
    (hcap : l.tokens ≤ l.capacity) (hds : ∀ d ∈ ds, 0 ≤ d) :
    ∀ p ∈ l.allowTrace ds, 0 ≤ p.2.tokens ∧ p.2.tokens ≤ p.2.capacity := by
  induction ds generalizing l with
  | nil => simp [Limiter.allowTrace]
  | cons d ds ih =>
      intro p hp
      simp only [Limiter.allowTrace, List.mem_cons] at hp
      have hd : 0 ≤ d := hds d (by simp)
      have hnow : l.lastRefill ≤ l.lastRefill + d := by linarith
      have hstep := Limiter.allow_tokens_bound l (l.lastRefill + d) hrate h0 hcap hnow
      have hf := Limiter.allow_fields l (l.lastRefill + d)
      rcases hp with rfl | hp
      · exact ⟨hstep.1, by rw [hf.2.1]; exact hstep.2⟩
      · refine ih ((l.allow (l.lastRefill + d)).2) ?_ hstep.1 ?_ ?_ p hp
        · rw [hf.1]; exact hrate
        · rw [hf.2.1]; exact hstep.2
        · intro x hx; exact hds x (by simp [hx])

/-- C4 witness: the invariant instantiated at a full fresh bucket of capacity
2 and one `Allow` call with no elapsed time. -/
theorem limiter_tokens_invariant_witness :
    0 ≤ ((⟨1, 2, 2, 0⟩ : Limiter).allow (0 + 0)).2.tokens ∧
    ((⟨1, 2, 2, 0⟩ : Limiter).allow (0 + 0)).2.tokens ≤
      ((⟨1, 2, 2, 0⟩ : Limiter).allow (0 + 0)).2.capacity :=
  limiter_tokens_invariant ⟨1, 2, 2, 0⟩ [0] (by norm_num) (by norm_num)
    (by norm_num) (by simp) ((⟨1, 2, 2, 0⟩ : Limiter).allow (0 + 0))
    (by simp [Limiter.allowTrace])

theorem updateRow_id (m row : Movie) : (updateRow m row).id = row.id := by
  unfold updateRow
  split <;> rfl

theorem findById_map_updateRow (db : List Movie) (m : Movie) (i : ℤ) :
    findById (db.map (updateRow m)) i = (findById db i).map (updateRow m) := by
  unfold findById
  rw [List.find?_map]
  have hp : ((fun row => decide (row.id = i)) ∘ updateRow m) =
      fun row => decide (row.id = i) := by
    funext row
    simp [Function.comp, updateRow_id]
  rw [hp]

theorem movieUpdate_fst (db : List Movie) (m : Movie) :
    (MovieModel.Update db m).1 = db.map (updateRow m) := by
  unfold MovieModel.Update
  cases db.find?
      (fun row => decide (row.id = m.id) && decide (row.version = m.version)) <;>
    rfl

/-- C2: optimistic concurrency control of `Movies.Update` — against a table
whose ids are unique, the conditional update carrying expected version `V`
applies exactly when the stored row's version still equals `V`; on success
the stored version becomes `V + 1` (and the submitted fields are stored);
when no row matches (version advanced, or the record deleted) the call
returns `ErrEditConflict` and the table is unchanged; and the update handler
maps `ErrEditConflict` to the edit-conflict response. -/
theorem movieUpdate_versionGuard (db : List Movie) (m : Movie)
    (hids : (db.map Movie.id).Nodup) :
    (findById db m.id = none →
      MovieModel.Update db m = (db, Except.error DataError.editConflict)) ∧
    (∀ row, findById db m.id = some row →
      ((MovieModel.Update db m).2 =
          Except.ok { m with version := m.version + 1 } ↔
        row.version = m.version) ∧
      (row.version = m.version →
        findById (MovieModel.Update db m).1 m.id =
          some { row with
                 title := m.title
                 year := m.year
                 runtime := m.runtime
                 genres := m.genres
                 version := m.version + 1 }) ∧
      (row.version ≠ m.version →
        MovieModel.Update db m = (db, Except.error DataError.editConflict))) ∧
    updateMovieRespond (Except.error DataError.editConflict) =
      UpdateResponse.editConflict := by
  refine ⟨?_, ?_, rfl⟩
  · intro hfind
    have hids' : ∀ x ∈ db, ¬ x.id = m.id := by
      rw [findById, List.find?_eq_none] at hfind
      intro x hx
      simpa using hfind x hx
    have hnone : db.find?
        (fun row => decide (row.id = m.id) && decide (row.version = m.version)) =
        none := by
      rw [List.find?_eq_none]
      intro x hx
      simp only [Bool.and_eq_true, decide_eq_true_eq, not_and]
      intro h1
      exact absurd h1 (hids' x hx)
    have hmapid : db.map (updateRow m) = db := by
      have hfix : ∀ x ∈ db, updateRow m x = id x := by
        intro x hx
        unfold updateRow
        rw [if_neg]
        · rfl
        · rintro ⟨h1, _⟩
          exact hids' x hx h1
      rw [List.map_congr_left hfix, List.map_id]
    simp only [MovieModel.Update, hnone, hmapid]
  · intro row hrow
    have hrowmem : row ∈ db := List.mem_of_find?_eq_some hrow
    have hrowid : row.id = m.id := by
      have := List.find?_some hrow
      simpa using this
    constructor
    · constructor
      · intro hok
        cases hfp : db.find? (fun r =>
            decide (r.id = m.id) && decide (r.version = m.version)) with
        | none => simp [MovieModel.Update, hfp] at hok
        | some r =>
            have hrmem : r ∈ db := List.mem_of_find?_eq_some hfp
            have hr := List.find?_some hfp
            simp only [Bool.and_eq_true, decide_eq_true_eq] at hr
            have : r = row :=
              List.inj_on_of_nodup_map hids hrmem hrowmem (by rw [hr.1, hrowid])
            rw [← this]
            exact hr.2
      · intro hver
        have hsome : (db.find? (fun r =>
            decide (r.id = m.id) && decide (r.version = m.version))).isSome := by
          rw [List.find?_isSome]
          exact ⟨row, hrowmem, by simp [hrowid, hver]⟩
        obtain ⟨r, hfp⟩ := Option.isSome_iff_exists.mp hsome
        simp [MovieModel.Update, hfp]
    constructor
    · intro hver
      rw [movieUpdate_fst, findById_map_updateRow, hrow]
      have : updateRow m row =
          { row with
            title := m.title
            year := m.year
            runtime := m.runtime
            genres := m.genres
            version := m.version + 1 } := by
        unfold updateRow
        rw [if_pos ⟨hrowid, hver⟩, hver]
      rw [Option.map_some', this]
    · intro hver
      have hnone : db.find?
          (fun r => decide (r.id = m.id) && decide (r.version = m.version)) =
          none := by
        rw [List.find?_eq_none]
        intro x hx
        simp only [Bool.and_eq_true, decide_eq_true_eq, not_and]
        intro h1 h2
        have : x = row :=
          List.inj_on_of_nodup_map hids hx hrowmem (by rw [h1, hrowid])
        rw [this] at h2
        exact hver h2
      have hmapid : db.map (updateRow m) = db := by
        have hfix : ∀ x ∈ db, updateRow m x = id x := by
          intro x hx
          unfold updateRow
          rw [if_neg]
          · rfl
          · rintro ⟨h1, h2⟩
            have : x = row :=
              List.inj_on_of_nodup_map hids hx hrowmem (by rw [h1, hrowid])
            rw [this] at h2
            exact hver h2
        rw [List.map_congr_left hfix, List.map_id]
      simp only [MovieModel.Update, hnone, hmapid]

/-- C2 witness: a one-row table at version 1; an update expecting version 1
succeeds and stores version 2 with the new fields. -/
theorem movieUpdate_versionGuard_witness :
    ((MovieModel.Update [⟨1, "a", 2000, 100, ["g"], 1⟩]
        ⟨1, "b", 2001, 101, ["h"], 1⟩).2 =
      Except.ok ⟨1, "b", 2001, 101, ["h"], 1 + 1⟩ ↔ (1 : ℤ) = 1) ∧
    findById (MovieModel.Update [⟨1, "a", 2000, 100, ["g"], 1⟩]
        ⟨1, "b", 2001, 101, ["h"], 1⟩).1 1 =
      some ⟨1, "b", 2001, 101, ["h"], 1 + 1⟩ := by
  have h := movieUpdate_versionGuard [⟨1, "a", 2000, 100, ["g"], 1⟩]
    ⟨1, "b", 2001, 101, ["h"], 1⟩ (by simp)
  exact ⟨(h.2.1 ⟨1, "a", 2000, 100, ["g"], 1⟩ rfl).1,
    (h.2.1 ⟨1, "a", 2000, 100, ["g"], 1⟩ rfl).2.1 rfl⟩

/-- C9: the partial movie update merges field by field — a field absent from
the request body (nil pointer) leaves the fetched movie's field unchanged,
every present field replaces the stored value (a provided zero value counts
as present, since only `nil` is skipped), and the merge never touches `id` or
`version`. -/
theorem mergeMovieInput_frame (movie : Movie) (input : UpdateMovieInput) :
    (input.title = none → (mergeMovieInput movie input).title = movie.title) ∧
    (∀ t, input.title = some t → (mergeMovieInput movie input).title = t) ∧
    (input.year = none → (mergeMovieInput movie input).year = movie.year) ∧
    (∀ y, input.year = some y → (mergeMovieInput movie input).year = y) ∧
    (input.runtime = none →
      (mergeMovieInput movie input).runtime = movie.runtime) ∧
    (∀ rt, input.runtime = some rt →
      (mergeMovieInput movie input).runtime = rt) ∧
    (input.genres = none →
      (mergeMovieInput movie input).genres = movie.genres) ∧
    (∀ g, input.genres = some g → (mergeMovieInput movie input).genres = g) ∧
    (mergeMovieInput movie input).id = movie.id ∧
    (mergeMovieInput movie input).version = movie.version := by
  obtain ⟨t0, y0, r0, g0⟩ := input
  cases t0 <;> cases y0 <;> cases r0 <;> cases g0 <;>
    simp [mergeMovieInput]

/-- C9 witness: a body providing `year` and `genres` (the latter as an
explicit empty list) while omitting `title` and `runtime`. -/
theorem mergeMovieInput_frame_witness :
    (mergeMovieInput ⟨1, "t", 2000, 100, ["g"], 3⟩
        ⟨none, some 2010, none, some []⟩).title = "t" ∧
    (mergeMovieInput ⟨1, "t", 2000, 100, ["g"], 3⟩
        ⟨none, some 2010, none, some []⟩).year = 2010 ∧
    (mergeMovieInput ⟨1, "t", 2000, 100, ["g"], 3⟩
        ⟨none, some 2010, none, some []⟩).runtime = 100 ∧
    (mergeMovieInput ⟨1, "t", 2000, 100, ["g"], 3⟩
        ⟨none, some 2010, none, some []⟩).genres = [] ∧
    (mergeMovieInput ⟨1, "t", 2000, 100, ["g"], 3⟩
        ⟨none, some 2010, none, some []⟩).id = 1 ∧
    (mergeMovieInput ⟨1, "t", 2000, 100, ["g"], 3⟩
        ⟨none, some 2010, none, some []⟩).version = 3 := by
  have h := mergeMovieInput_frame ⟨1, "t", 2000, 100, ["g"], 3⟩
    ⟨none, some 2010, none, some []⟩
  exact ⟨h.1 rfl, h.2.2.2.1 2010 rfl, h.2.2.2.2.1 rfl,
    h.2.2.2.2.2.2.2.1 [] rfl, h.2.2.2.2.2.2.2.2.1, h.2.2.2.2.2.2.2.2.2⟩

/-- C10: non-positive ids never reach storage — `Movies.Get` and
`Movies.Delete` return `ErrRecordNotFound` without consulting the database
for every id below 1, `readIDParam` returns 0 together with an error for
every URL parameter that does not parse as an integer of at least 1, and the
id the show handler hands to `Movies.Get` — when it calls it at all — is at
least 1. -/
theorem nonPositiveId_guard (db : List Movie) (id : ℤ) (s : String) :
    (id < 1 →
      MovieModel.Get db id = (Except.error DataError.recordNotFound, false)) ∧
    (id < 1 →
      MovieModel.Delete db id =
        ((db, Except.error DataError.recordNotFound), false)) ∧
    ((readIDParam s).2 = none → 1 ≤ (readIDParam s).1) ∧
    ((readIDParam s).2 ≠ none → (readIDParam s).1 = 0) ∧
    (∀ i, showMovieGetCall s = some i → 1 ≤ i) := by
  have hok : (readIDParam s).2 = none → 1 ≤ (readIDParam s).1 := by
    unfold readIDParam
    cases hp : parseInt64 s with
    | none => intro h; simp at h
    | some v =>
        by_cases hv : v < 1
        · intro h; simp [hv] at h
        · intro _; simpa [hv] using not_lt.mp hv
  refine ⟨?_, ?_, hok, ?_, ?_⟩
  · intro h
    simp [MovieModel.Get, h]
  · intro h
    simp [MovieModel.Delete, h]
  · intro h
    unfold readIDParam at h ⊢
    cases hp : parseInt64 s with
    | none => simp
    | some v =>
        rw [hp] at h
        by_cases hv : v < 1
        · simp [hv]
        · simp [hv] at h
  · intro i hi
    unfold showMovieGetCall at hi
    cases hr : readIDParam s with
    | mk a b =>
        rw [hr] at hi
        cases b with
        | some e => simp at hi
        | none =>
            simp only [Option.some.injEq] at hi
            subst hi
            have h1 := hok (by rw [hr])
            rwa [hr] at h1

/-- C10 witness: id −3 is rejected by both storage guards without a database
call; the URL parameter "7" parses to an id of at least 1 and is the id the
show handler would pass to `Movies.Get`. -/
theorem nonPositiveId_guard_witness :
    MovieModel.Get [⟨1, "a", 2000, 100, ["g"], 1⟩] (-3) =
      (Except.error DataError.recordNotFound, false) ∧
    MovieModel.Delete [⟨1, "a", 2000, 100, ["g"], 1⟩] (-3) =
      (([⟨1, "a", 2000, 100, ["g"], 1⟩],
        Except.error DataError.recordNotFound), false) ∧
    1 ≤ (readIDParam "7").1 ∧
    (readIDParam "abc").1 = 0 ∧
    (1 : ℤ) ≤ 7 := by
  have h7 := nonPositiveId_guard [⟨1, "a", 2000, 100, ["g"], 1⟩] (-3) "7"
  have habc := nonPositiveId_guard [⟨1, "a", 2000, 100, ["g"], 1⟩] (-3) "abc"
  exact ⟨h7.1 (by norm_num), h7.2.1 (by norm_num), h7.2.2.1 rfl,
    habc.2.2.2.1 (by simp [readIDParam, parseInt64, digitsVal]),
    h7.2.2.2.2 7 rfl⟩

end Greenlight
